import Mathlib

/-!
Verification of the batch-scraping core of the Kobo book scraper
(`tools.py`, `concurrency.py`, `scraper.py`) against its natural-language
specification.

The Python code is shallowly embedded: exceptions become `Except PyErr`,
the asyncio event trace is made explicit (which items the worker was
invoked on, how many inter-batch delays were awaited), and pandas
dataframes become lists of records.
-/

/-- Python exception classes relevant to the scraper, plus an opaque tag
for arbitrary exceptions raised inside a worker. -/
inductive PyErr where
  | typeError : PyErr
  | valueError : String → PyErr
  | attributeError : PyErr
  | userExn : Nat → PyErr
deriving DecidableEq, Repr

deriving instance DecidableEq for Except

/-- Python `range(0, n, step)` as used at tools.py:100
(`range(0, len(url_lists), batch_sizes)`): a zero step raises
`ValueError`, a negative step with a non-negative stop yields no indices,
and a positive step yields `0, step, 2*step, ...` below `n`. -/
def csIndices (n : Nat) (step : Int) : Except PyErr (List Nat) :=
  if step = 0 then .error (.valueError "range() arg 3 must not be zero")
  else if step < 0 then .ok []
  else .ok ((List.range ((n + step.toNat - 1) / step.toNat)).map (· * step.toNat))

/-- Python slice `url_lists[idx : idx + batch_sizes]` (tools.py:101) for a
non-negative start index and a positive width. -/
def sliceBatch (url_lists : List α) (idx : Nat) (batch_sizes : Int) : List α :=
  (url_lists.drop idx).take batch_sizes.toNat

/-- The batch list built by the loop at tools.py:100-101: one slice of the
input per index produced by `range(0, len(url_lists), batch_sizes)` (empty
when the range itself raises). -/
def csBatchList (url_lists : List α) (batch_sizes : Int) : List (List α) :=
  match csIndices url_lists.length batch_sizes with
  | .error _ => []
  | .ok idxs => idxs.map (fun idx => sliceBatch url_lists idx batch_sizes)

/-- `await asyncio.gather(*coroutines)` at tools.py:103 with the default
`return_exceptions=False`: every coroutine of the batch runs, and if any
raises, the exception is re-raised by `gather` (results of the others are
discarded); otherwise the results come back in input order. -/
def gatherMap (worker : α → Bool → Except PyErr (List ρ)) (headless : Bool) :
    List α → Except PyErr (List (List ρ))
  | [] => .ok []
  | u :: us =>
    match worker u headless with
    | .error e => .error e
    | .ok r =>
      match gatherMap worker headless us with
      | .error e => .error e
      | .ok rs => .ok (r :: rs)

/-- Prepend a batch's per-item results onto an already-accumulated
(possibly failed) tail of result slots. -/
def exceptPrepend (xs : List β) : Except PyErr (List β) → Except PyErr (List β)
  | .error e => .error e
  | .ok ys => .ok (xs ++ ys)

/-- Observable trace of the `for idx in range(...)` loop of
`concurrent_scraping` (tools.py:100-109): the per-item result slots (the
`dfs` list, one dataframe per item), the items on which the worker was
invoked, and how many `asyncio.sleep` delays were awaited. -/
structure CSState (α ρ : Type) where
  slots : Except PyErr (List (List ρ))
  calls : List α
  sleeps : Nat
deriving DecidableEq, Repr

/-- The batch loop of `concurrent_scraping` (tools.py:100-109). For each
batch: gather all its workers (an exception aborts the loop after the
whole batch was launched, before any sleep), extend `dfs` with one
dataframe per item, then `await asyncio.sleep(delay_between_batches)` —
the sleep sits inside the loop, so it also runs after the final batch. -/
def csLoop (worker : α → Bool → Except PyErr (List ρ)) (headless : Bool) :
    List (List α) → CSState α ρ
  | [] => ⟨.ok [], [], 0⟩
  | b :: rest =>
    match gatherMap worker headless b with
    | .error e => ⟨.error e, b, 0⟩
    | .ok slots_b =>
      let st := csLoop worker headless rest
      ⟨exceptPrepend slots_b st.slots, b ++ st.calls, 1 + st.sleeps⟩

/-- `pd.concat(dfs)` at tools.py:112: raises `ValueError` when `dfs` is
empty, otherwise concatenates the per-item record lists. -/
def pdConcat (dfs : List (List ρ)) : Except PyErr (List ρ) :=
  match dfs with
  | [] => .error (.valueError "No objects to concatenate")
  | _ => .ok dfs.flatten

/-- Final-dataframe step of `concurrent_scraping`: only reached when the
loop finished without an exception. -/
def csFinal : Except PyErr (List (List ρ)) → Except PyErr (List ρ)
  | .error e => .error e
  | .ok dfs => pdConcat dfs

/-- Full observable behaviour of one `concurrent_scraping` call: the slot
list `dfs`, the value returned to the caller (`pd.concat(dfs)`), the
worker invocations and the awaited delays. -/
structure CSRun (α ρ : Type) where
  slots : Except PyErr (List (List ρ))
  final : Except PyErr (List ρ)
  calls : List α
  sleeps : Nat
deriving DecidableEq, Repr

/-- `concurrent_scraping(url_lists, scraping_functions, batch_sizes,
delay_between_batches, headless)` (tools.py:97-113). The worker is the
`scraping_functions(url, headless)` coroutine; `delay_between_batches`
does not influence the control flow (only how long each awaited sleep
lasts), so the trace records the number of sleeps. -/
def concurrent_scraping (url_lists : List α)
    (scraping_functions : α → Bool → Except PyErr (List ρ))
    (batch_sizes : Int) (delay_between_batches : Int) (headless : Bool) :
    CSRun α ρ :=
  match csIndices url_lists.length batch_sizes with
  | .error e => ⟨.error e, .error e, [], 0⟩
  | .ok idxs =>
    let st := csLoop scraping_functions headless
      (idxs.map (fun idx => sliceBatch url_lists idx batch_sizes))
    ⟨st.slots, csFinal st.slots, st.calls, st.sleeps⟩

/-! ## Pipeline entry points and the Stage-A output filter (concurrency.py) -/

/-- `logging_debugging(name, level = logging.DEBUG)` (tools.py:29-37) as a
call-binding check: the function has one required positional parameter
(`name`; `level` has a default), so Python raises `TypeError` whenever it
is called with fewer positional arguments than required. The body only
configures process-wide logging. -/
def logging_debugging (numPosArgs : Nat) : Except PyErr Unit :=
  if numPosArgs < 1 then .error .typeError else .ok ()

/-- The list comprehension at concurrency.py:43:
`[url for url in book_urls if not 'query' in book_urls]`.
Because `book_urls` is the whole list of URL strings, `'query' in
book_urls` is Python list membership (is the exact string "query" an
element of the list), not a substring test on the individual `url`; the
guard is therefore the same for every element. -/
def filtered_book_urls (book_urls : List String) : List String :=
  book_urls.filter (fun _url => !(book_urls.contains "query"))

/-- Character-list prefix test (needle, haystack). -/
def lpre : List Char → List Char → Bool
  | [], _ => true
  | _ :: _, [] => false
  | a :: as, b :: bs => a == b && lpre as bs

/-- Character-list substring test (needle, haystack). -/
def lsub (needle : List Char) : List Char → Bool
  | [] => lpre needle []
  | c :: rest => lpre needle (c :: rest) || lsub needle rest

/-- Python's `needle in hay` on two strings: substring occurrence. -/
def hasSubstring (hay needle : String) : Bool :=
  lsub needle.toList hay.toList

/-- Modelled from the spec: the intended per-item exclusion that
concurrency.py:43 misses — "output of Stage A (minus any records whose
URL looks like a failed search)", with per-item substring semantics
(`'query' in url`): a record is dropped if and only if the marker occurs
in that record's own URL. -/
def filtered_book_urls_intended (book_urls : List String) : List String :=
  book_urls.filter (fun url => !(hasSubstring url "query"))

/-- Observable behaviour of a pipeline entry point (`isbn_automation` or
`book_info_automation`, concurrency.py): the outcome reaching the caller
and the items on which a scraping worker was invoked. -/
structure PipelineRun (α : Type) where
  outcome : Except PyErr Unit
  workerCalls : List α
deriving Repr

/-- `isbn_automation(batches, delay, headless)` (concurrency.py:17-35).
The CSV read is an external collaborator and is modelled by the
`isbn_lists` parameter (its successfully-read contents). Step order as in
the source: read the CSV, call `logging_debugging()` with zero arguments
(line 26), create the output directory (external side effect), run
`concurrent_scraping`, export (external side effect). -/
def isbn_automation (isbn_lists : List α)
    (worker : α → Bool → Except PyErr (List ρ))
    (batches delay : Int) (headless : Bool) : PipelineRun α :=
  match logging_debugging 0 with
  | .error e => ⟨.error e, []⟩
  | .ok _ =>
    let run := concurrent_scraping isbn_lists worker batches delay headless
    ⟨(match run.final with | .error e => .error e | .ok _ => .ok ()), run.calls⟩

/-- `book_info_automation(batches, delay, headless)` (concurrency.py:38-59).
The CSV read is modelled by the `book_urls` parameter. Step order as in
the source: read the CSV, build `filtered_book_urls` (line 43), call
`logging_debugging()` with zero arguments (line 49), create the output
directory, run `concurrent_scraping`, export. -/
def book_info_automation (book_urls : List String)
    (worker : String → Bool → Except PyErr (List ρ))
    (batches delay : Int) (headless : Bool) : PipelineRun String :=
  let filtered := filtered_book_urls book_urls
  match logging_debugging 0 with
  | .error e => ⟨.error e, []⟩
  | .ok _ =>
    let run := concurrent_scraping filtered worker batches delay headless
    ⟨(match run.final with | .error e => .error e | .ok _ => .ok ()), run.calls⟩

/-! ## Worker exit protocol (scraper.py) and the missing-value accessor -/

/-- Behaviour of the two `await ... .close()` calls available to a worker
run: whether closing the browsing context and closing the browser raise
(`some e`) or succeed (`none`). -/
structure BrowserEnv where
  ctxCloseErr : Option PyErr
  browserCloseErr : Option PyErr
deriving DecidableEq, Repr

/-- Observable outcome of one worker invocation after its
try/except/finally protocol: the value or exception handed to
`asyncio.gather`, whether each of the two releases was attempted, how
many cleanup failures were logged, and how many item-level failures were
logged. -/
structure WorkerRun (ρ : Type) where
  result : Except PyErr ρ
  ctxCloseTried : Bool
  browserCloseTried : Bool
  cleanupLogged : Nat
  itemLogged : Nat
deriving DecidableEq, Repr

/-- Exit protocol of `get_url_by_isbn` (scraper.py:27-80), from the point
where context and browser exist. `body` is the outcome of the try block
(scraper.py:36-69). The except arm (70-71) logs the item failure and
leaves `infos` empty; the finally arm (72-77) runs
`await context.close(); await browser.close()` with no guard of its own,
so a failing `context.close()` propagates out of the function (skipping
`browser.close()` and the `return infos`), and a failing
`browser.close()` propagates likewise. -/
def get_url_by_isbn_run (body : Except PyErr (List ρ)) (env : BrowserEnv) :
    WorkerRun (List ρ) :=
  let infos : List ρ := match body with | .ok r => r | .error _ => []
  let iLog : Nat := match body with | .ok _ => 0 | .error _ => 1
  match env.ctxCloseErr with
  | some e => ⟨.error e, true, false, 0, iLog⟩
  | none =>
    match env.browserCloseErr with
    | some e => ⟨.error e, true, true, 0, iLog⟩
    | none => ⟨.ok infos, true, true, 0, iLog⟩

/-- Exit protocol of `book_info` (scraper.py:84-181). `body` is the
outcome of the try block; on success the function returns the one-record
list from inside the try (scraper.py:170), on failure the except arm
(171-172) logs and the function falls through to return `None`. The
finally arm (173-180) wraps each of `context.close()` and
`browser.close()` in its own try/except that logs the failure, so both
releases are always attempted and never change the function's outcome. -/
def book_info_run (body : Except PyErr (List ρ)) (env : BrowserEnv) :
    WorkerRun (Option (List ρ)) :=
  let res : Option (List ρ) := match body with | .ok r => some r | .error _ => none
  let iLog : Nat := match body with | .ok _ => 0 | .error _ => 1
  let cLog : Nat := (match env.ctxCloseErr with | some _ => 1 | none => 0)
    + (match env.browserCloseErr with | some _ => 1 | none => 0)
  ⟨.ok res, true, true, cLog, iLog⟩

/-- A parsed HTML element as far as `TryExcept.text` observes it: its
text content. `soup.select_one` yields either such an element or
`None`. -/
structure HtmlElement where
  text : String
deriving DecidableEq, Repr

/-- Python attribute access `element.text`: raises `AttributeError` when
`element` is `None`. -/
def pyGetText : Option HtmlElement → Except PyErr String
  | some el => .ok el.text
  | none => .error .attributeError

/-- `TryExcept.text` (tools.py:50-56): `element.text.strip()` inside a
try, with `except AttributeError` producing the "N/A" sentinel. Any
exception other than `AttributeError` would propagate (none arises from
`.strip()` on a string). -/
def TryExcept.text (element : Option HtmlElement) : Except PyErr String :=
  match pyGetText element with
  | .ok s => .ok s.trim
  | .error .attributeError => .ok "N/A"
  | .error e => .error e

/-! ## Structural view of the batch partition -/

/-- Structural recursion computing consecutive chunks of width `b`:
the reference shape against which the `range`-based slicing of
tools.py:100-101 is proved equal (for `b >= 1`). -/
def chunks (b : Nat) : List α → List (List α)
  | [] => []
  | u :: us => (u :: us.take (b - 1)) :: chunks b (us.drop (b - 1))
termination_by l => l.length
decreasing_by
  simp only [List.length_drop, List.length_cons]
  omega

/-- The `range`-based batch slicing of tools.py:100-101, at the Nat level:
slice starting points `0, b, 2b, ...`, `ceil(n/b)` of them. -/
def natBatches (l : List α) (b : Nat) : List (List α) :=
  (List.range ((l.length + b - 1) / b)).map (fun i => (l.drop (i * b)).take b)

theorem chunks_nil (b : Nat) : chunks b ([] : List α) = [] := by
  simp [chunks]

theorem chunks_cons (b : Nat) (hb : 1 ≤ b) (u : α) (us : List α) :
    chunks b (u :: us) = ((u :: us).take b) :: chunks b ((u :: us).drop b) := by
  obtain ⟨k, rfl⟩ : ∃ k, b = k + 1 := ⟨b - 1, by omega⟩
  simp [chunks]

theorem natBatches_nil (b : Nat) (hb : 1 ≤ b) : natBatches ([] : List α) b = [] := by
  unfold natBatches
  simp only [List.length_nil, Nat.zero_add]
  rw [Nat.div_eq_of_lt (by omega)]
  simp

theorem natBatches_eq_chunks_aux (b : Nat) (hb : 1 ≤ b) :
    ∀ (n : Nat) (l : List α), l.length ≤ n → natBatches l b = chunks b l := by
  intro n
  induction n with
  | zero =>
    intro l hl
    have hl0 : l = [] := by
      cases l with
      | nil => rfl
      | cons a as => simp at hl
    subst hl0
    rw [natBatches_nil b hb, chunks_nil]
  | succ n ih =>
    intro l hl
    cases l with
    | nil => rw [natBatches_nil b hb, chunks_nil]
    | cons u us =>
      have hcount : (u :: us).length + b - 1 = us.length + b := by
        simp only [List.length_cons]
        omega
      have hdiv : (us.length + b) / b = us.length / b + 1 :=
        Nat.add_div_right us.length (by omega)
      unfold natBatches
      rw [hcount, hdiv, List.range_succ_eq_map, List.map_cons, List.map_map]
      have hhead : ((u :: us).drop (0 * b)).take b = (u :: us).take b := by
        simp
      have htail :
          (List.range (us.length / b)).map
              ((fun i => ((u :: us).drop (i * b)).take b) ∘ Nat.succ)
            = natBatches ((u :: us).drop b) b := by
        have hlen : ((u :: us).drop b).length + b - 1 = us.length + 1 - b + b - 1 := by
          simp
        have hdiv2 : (us.length + 1 - b + b - 1) / b = us.length / b := by
          rcases Nat.lt_or_ge (us.length + 1) b with hc | hc
          · have e1 : us.length + 1 - b + b - 1 = b - 1 := by omega
            rw [e1, Nat.div_eq_of_lt (by omega), Nat.div_eq_of_lt (by omega)]
          · have e1 : us.length + 1 - b + b - 1 = us.length := by omega
            rw [e1]
        unfold natBatches
        rw [hlen, hdiv2]
        apply List.map_congr_left
        intro i _
        simp only [Function.comp_apply, List.drop_drop]
        have e2 : Nat.succ i * b = i * b + b := by
          rw [Nat.succ_mul]
        rw [e2, Nat.add_comm (i * b) b]
      rw [hhead, htail]
      rw [ih ((u :: us).drop b) (by simp; omega)]
      rw [chunks_cons b hb u us]

theorem natBatches_eq_chunks (b : Nat) (hb : 1 ≤ b) (l : List α) :
    natBatches l b = chunks b l :=
  natBatches_eq_chunks_aux b hb l.length l (le_refl _)

theorem chunks_flatten_aux (b : Nat) (hb : 1 ≤ b) :
    ∀ (n : Nat) (l : List α), l.length ≤ n → (chunks b l).flatten = l := by
  intro n
  induction n with
  | zero =>
    intro l hl
    have hl0 : l = [] := by
      cases l with
      | nil => rfl
      | cons a as => simp at hl
    subst hl0
    simp [chunks_nil]
  | succ n ih =>
    intro l hl
    cases l with
    | nil => simp [chunks_nil]
    | cons u us =>
      rw [chunks_cons b hb, List.flatten_cons]
      rw [ih ((u :: us).drop b) (by simp only [List.length_drop, List.length_cons] at hl ⊢; omega)]
      exact List.take_append_drop b (u :: us)

/-- Flattening the chunks restores the input list. -/
theorem chunks_flatten (b : Nat) (hb : 1 ≤ b) (l : List α) :
    (chunks b l).flatten = l :=
  chunks_flatten_aux b hb l.length l (le_refl _)

theorem chunks_mem_length_aux (b : Nat) (hb : 1 ≤ b) :
    ∀ (n : Nat) (l : List α), l.length ≤ n →
      ∀ c ∈ chunks b l, 1 ≤ c.length ∧ c.length ≤ b := by
  intro n
  induction n with
  | zero =>
    intro l hl
    have hl0 : l = [] := by
      cases l with
      | nil => rfl
      | cons a as => simp at hl
    subst hl0
    simp [chunks_nil]
  | succ n ih =>
    intro l hl
    cases l with
    | nil => simp [chunks_nil]
    | cons u us =>
      rw [chunks_cons b hb]
      intro c hc
      rcases List.mem_cons.mp hc with rfl | hmem
      · constructor
        · simp only [List.length_take, List.length_cons]
          omega
        · simp only [List.length_take, List.length_cons]
          omega
      · exact ih ((u :: us).drop b)
          (by simp only [List.length_drop, List.length_cons] at hl ⊢; omega) c hmem

/-- Every chunk is non-empty and no longer than the chunk width. -/
theorem chunks_mem_length (b : Nat) (hb : 1 ≤ b) (l : List α) :
    ∀ c ∈ chunks b l, 1 ≤ c.length ∧ c.length ≤ b :=
  chunks_mem_length_aux b hb l.length l (le_refl _)

theorem chunks_dropLast_aux (b : Nat) (hb : 1 ≤ b) :
    ∀ (n : Nat) (l : List α), l.length ≤ n →
      ∀ c ∈ (chunks b l).dropLast, c.length = b := by
  intro n
  induction n with
  | zero =>
    intro l hl
    have hl0 : l = [] := by
      cases l with
      | nil => rfl
      | cons a as => simp at hl
    subst hl0
    simp [chunks_nil]
  | succ n ih =>
    intro l hl
    cases l with
    | nil => simp [chunks_nil]
    | cons u us =>
      rw [chunks_cons b hb]
      cases htl : chunks b ((u :: us).drop b) with
      | nil => simp
      | cons t ts =>
        have hne : (u :: us).drop b ≠ [] := by
          intro h0
          rw [h0, chunks_nil] at htl
          exact List.noConfusion htl
        have hlen : b + 1 ≤ (u :: us).length := by
          have : 1 ≤ ((u :: us).drop b).length := by
            cases hd : (u :: us).drop b with
            | nil => exact absurd hd hne
            | cons x xs => simp
          simp only [List.length_drop] at this
          omega
        rw [← htl]
        rw [List.dropLast_cons_of_ne_nil (by rw [htl]; exact fun h => List.noConfusion h)]
        intro c hc
        rcases List.mem_cons.mp hc with rfl | hmem
        · simp only [List.length_take, List.length_cons]
          simp only [List.length_cons] at hlen
          omega
        · exact ih ((u :: us).drop b)
            (by simp only [List.length_drop, List.length_cons] at hl ⊢; omega) c hmem

/-- All chunks except possibly the last have exactly the chunk width. -/
theorem chunks_dropLast_length (b : Nat) (hb : 1 ≤ b) (l : List α) :
    ∀ c ∈ (chunks b l).dropLast, c.length = b :=
  chunks_dropLast_aux b hb l.length l (le_refl _)

theorem chunks_length (b : Nat) (hb : 1 ≤ b) (l : List α) :
    (chunks b l).length = (l.length + b - 1) / b := by
  rw [← natBatches_eq_chunks b hb l]
  simp [natBatches]

/-! ## Bridge lemmas: the loop of `concurrent_scraping` over the chunks -/

theorem csIndices_pos (n : Nat) (bs : Int) (hbs : 1 ≤ bs) :
    csIndices n bs =
      .ok ((List.range ((n + bs.toNat - 1) / bs.toNat)).map (· * bs.toNat)) := by
  unfold csIndices
  rw [if_neg (by omega), if_neg (by omega)]

/-- For a positive batch size the slicing loop of tools.py:100-101
produces exactly the consecutive chunks of the input. -/
theorem csBatchList_pos (l : List α) (bs : Int) (hbs : 1 ≤ bs) :
    csBatchList l bs = chunks bs.toNat l := by
  unfold csBatchList
  rw [csIndices_pos _ _ hbs]
  show ((List.range _).map _).map _ = _
  rw [List.map_map, ← natBatches_eq_chunks bs.toNat (by omega) l]
  rfl

theorem concurrent_scraping_pos (l : List α)
    (worker : α → Bool → Except PyErr (List ρ)) (bs dl : Int) (hl : Bool)
    (hbs : 1 ≤ bs) :
    concurrent_scraping l worker bs dl hl =
      ⟨(csLoop worker hl (chunks bs.toNat l)).slots,
       csFinal (csLoop worker hl (chunks bs.toNat l)).slots,
       (csLoop worker hl (chunks bs.toNat l)).calls,
       (csLoop worker hl (chunks bs.toNat l)).sleeps⟩ := by
  unfold concurrent_scraping
  rw [csIndices_pos _ _ hbs]
  have hmap : ((List.range ((l.length + bs.toNat - 1) / bs.toNat)).map
        (· * bs.toNat)).map (fun idx => sliceBatch l idx bs)
      = chunks bs.toNat l := by
    rw [List.map_map, ← natBatches_eq_chunks bs.toNat (by omega) l]
    rfl
  show (⟨_, _, _, _⟩ : CSRun α ρ) = _
  rw [hmap]

theorem gatherMap_ok (worker : α → Bool → Except PyErr (List ρ)) (hl : Bool)
    (f : α → List ρ) :
    ∀ batch : List α, (∀ u ∈ batch, worker u hl = .ok (f u)) →
      gatherMap worker hl batch = .ok (batch.map f) := by
  intro batch
  induction batch with
  | nil => intro _; rfl
  | cons u us ih =>
    intro h
    have hu : worker u hl = .ok (f u) := h u (by simp)
    have hus := ih (fun v hv => h v (by simp [hv]))
    simp [gatherMap, hu, hus]

theorem gatherMap_head_err (worker : α → Bool → Except PyErr (List ρ))
    (hl : Bool) (u : α) (us : List α) (e : PyErr) (h : worker u hl = .error e) :
    gatherMap worker hl (u :: us) = .error e := by
  simp [gatherMap, h]

/-- When every worker invocation returns normally, the batch loop yields
one result slot per item (in batch order), invokes the worker on exactly
the flattened batch list, and sleeps once per batch. -/
theorem csLoop_ok (worker : α → Bool → Except PyErr (List ρ)) (hl : Bool)
    (f : α → List ρ) :
    ∀ B : List (List α), (∀ u ∈ B.flatten, worker u hl = .ok (f u)) →
      csLoop worker hl B = ⟨.ok (B.flatten.map f), B.flatten, B.length⟩ := by
  intro B
  induction B with
  | nil => intro _; rfl
  | cons b rest ih =>
    intro h
    have hb : ∀ u ∈ b, worker u hl = .ok (f u) := by
      intro u hu
      exact h u (by simp [hu])
    have hrest := ih (by
      intro u hu
      exact h u (by simp [hu]))
    simp only [csLoop, gatherMap_ok worker hl f b hb, hrest, exceptPrepend,
      List.flatten_cons, List.map_append, List.length_cons]
    rw [Nat.add_comm 1 rest.length]

/-! ## Claim theorems -/

/-- C1, counterexample: a worker invocation that raises leaves no result
slot at all — `concurrent_scraping` itself re-raises the exception
(`asyncio.gather` with `return_exceptions=False`), so the call on a
one-item list with a raising worker produces an exception, not a
one-empty-slot AggregatedResult as the claim requires. -/
theorem concurrent_scraping_worker_exn_breaks_slot_invariant :
    (concurrent_scraping [0]
        (fun _ _ => (.error (.userExn 0) : Except PyErr (List Nat))) 1 0 true).slots
      = .error (.userExn 0)
  ∧ (concurrent_scraping [0]
        (fun _ _ => (.error (.userExn 0) : Except PyErr (List Nat))) 1 0 true).final
      = .error (.userExn 0) := by
  exact ⟨rfl, rfl⟩

/-- C1 (amended): for every non-empty input list, `batchSize >= 1` and
`interBatchDelay >= 0`, **provided every worker invocation returns
normally** (worker-internal failures already absorbed as an empty record
collection, as the repository's own workers do), the AggregatedResult
holds exactly one result slot per input item, in input order, and the
returned dataframe is their concatenation. A worker that raises, or an
empty input, instead makes `concurrent_scraping` itself raise. -/
theorem concurrent_scraping_one_slot_per_item_of_ok
    (l : List α) (worker : α → Bool → Except PyErr (List ρ)) (f : α → List ρ)
    (bs dl : Int) (hl : Bool)
    (hbs : 1 ≤ bs) (hdl : 0 ≤ dl) (hne : l ≠ [])
    (hw : ∀ u ∈ l, worker u hl = .ok (f u)) :
    (concurrent_scraping l worker bs dl hl).slots = .ok (l.map f)
  ∧ (concurrent_scraping l worker bs dl hl).final = .ok ((l.map f).flatten) := by
  have hb1 : 1 ≤ bs.toNat := by omega
  have hflat : (chunks bs.toNat l).flatten = l := chunks_flatten bs.toNat hb1 l
  have hloop := csLoop_ok worker hl f (chunks bs.toNat l) (by rw [hflat]; exact hw)
  rw [concurrent_scraping_pos l worker bs dl hl hbs]
  constructor
  · show (csLoop worker hl (chunks bs.toNat l)).slots = _
    rw [hloop, hflat]
  · show csFinal (csLoop worker hl (chunks bs.toNat l)).slots = _
    rw [hloop]
    show csFinal (.ok ((chunks bs.toNat l).flatten.map f)) = _
    rw [hflat]
    cases hml : l.map f with
    | nil => exact absurd (List.map_eq_nil_iff.mp hml) hne
    | cons x xs => simp [csFinal, pdConcat]

/-- C1, witness for the amended theorem at a concrete input. -/
theorem concurrent_scraping_one_slot_per_item_of_ok_witness :
    (concurrent_scraping [3, 4, 5]
        (fun u _ => (.ok [u, u] : Except PyErr (List Nat))) 2 0 true).slots
      = .ok [[3, 3], [4, 4], [5, 5]]
  ∧ (concurrent_scraping [3, 4, 5]
        (fun u _ => (.ok [u, u] : Except PyErr (List Nat))) 2 0 true).final
      = .ok [3, 3, 4, 4, 5, 5] := by
  have h := concurrent_scraping_one_slot_per_item_of_ok [3, 4, 5]
      (fun u _ => (.ok [u, u] : Except PyErr (List Nat))) (fun u => [u, u]) 2 0 true
      (by decide) (by decide) (by decide) (by decide)
  exact ⟨h.1, h.2⟩

/-- C2, counterexample: with two items in one batch, the first worker
raising and the second succeeding, the non-structural exception
`userExn 7` is what the caller of `concurrent_scraping` receives — the
failure is not absorbed at the item boundary, even though the sibling
was still invoked. -/
theorem concurrent_scraping_worker_exn_reaches_caller :
    (concurrent_scraping [0, 1]
        (fun u _ => if u = 0 then .error (.userExn 7)
          else (.ok [u] : Except PyErr (List Nat))) 2 0 true).final
      = .error (.userExn 7)
  ∧ (concurrent_scraping [0, 1]
        (fun u _ => if u = 0 then .error (.userExn 7)
          else (.ok [u] : Except PyErr (List Nat))) 2 0 true).calls
      = [0, 1] := by
  exact ⟨rfl, rfl⟩

/-- C2 (amended): an exception raised by a worker invocation is **not**
absorbed at the item boundary: `asyncio.gather` re-raises it, the call
aborts (the raising item's whole batch was still launched, but its
results are discarded, and no later batch or delay runs), and the
exception — of any class — reaches the caller of `concurrent_scraping`.
Only a failure the worker catches internally yields an empty slot. -/
theorem concurrent_scraping_worker_exn_propagates
    (u : α) (rest : List α) (worker : α → Bool → Except PyErr (List ρ))
    (e : PyErr) (bs dl : Int) (hl : Bool)
    (hbs : 1 ≤ bs) (hw : worker u hl = .error e) :
    (concurrent_scraping (u :: rest) worker bs dl hl).slots = .error e
  ∧ (concurrent_scraping (u :: rest) worker bs dl hl).final = .error e
  ∧ (concurrent_scraping (u :: rest) worker bs dl hl).calls
      = (u :: rest).take bs.toNat
  ∧ (concurrent_scraping (u :: rest) worker bs dl hl).sleeps = 0 := by
  have hb1 : 1 ≤ bs.toNat := by omega
  rw [concurrent_scraping_pos _ worker bs dl hl hbs]
  rw [chunks_cons bs.toNat hb1 u rest]
  have hbatch : (u :: rest).take bs.toNat = u :: rest.take (bs.toNat - 1) := by
    obtain ⟨k, hk⟩ : ∃ k, bs.toNat = k + 1 := ⟨bs.toNat - 1, by omega⟩
    rw [hk]
    rfl
  have hg : gatherMap worker hl ((u :: rest).take bs.toNat) = .error e := by
    rw [hbatch]
    exact gatherMap_head_err worker hl u _ e hw
  have hloop : csLoop worker hl
      (((u :: rest).take bs.toNat) :: chunks bs.toNat ((u :: rest).drop bs.toNat))
      = ⟨.error e, (u :: rest).take bs.toNat, 0⟩ := by
    simp [csLoop, hg]
  rw [hloop]
  exact ⟨rfl, rfl, rfl, rfl⟩

/-- C2, witness for the amended theorem at a concrete input. -/
theorem concurrent_scraping_worker_exn_propagates_witness :
    (concurrent_scraping [0, 1]
        (fun u _ => if u = 0 then .error (.userExn 7)
          else (.ok [u] : Except PyErr (List Nat))) 1 0 true).final
      = .error (.userExn 7)
  ∧ (concurrent_scraping [0, 1]
        (fun u _ => if u = 0 then .error (.userExn 7)
          else (.ok [u] : Except PyErr (List Nat))) 1 0 true).calls = [0]
  ∧ (concurrent_scraping [0, 1]
        (fun u _ => if u = 0 then .error (.userExn 7)
          else (.ok [u] : Except PyErr (List Nat))) 1 0 true).sleeps = 0 := by
  have h := concurrent_scraping_worker_exn_propagates 0 [1]
      (fun u _ => if u = 0 then .error (.userExn 7)
        else (.ok [u] : Except PyErr (List Nat))) (.userExn 7) 1 0 true
      (by decide) (by decide)
  exact ⟨h.2.1, h.2.2.1, h.2.2.2⟩

/-- C3, counterexample: on the empty input list `concurrent_scraping`
does not return an empty AggregatedResult — `pd.concat` on the empty
`dfs` list raises `ValueError`, which reaches the caller. -/
theorem concurrent_scraping_empty_input_raises :
    (concurrent_scraping ([] : List Nat)
        (fun u _ => (.ok [u] : Except PyErr (List Nat))) 1 0 true).final
      = .error (.valueError "No objects to concatenate") := by
  exact rfl

/-- C3 (amended): for the empty input list, every worker, `batchSize >= 1`
and `interBatchDelay >= 0`, `concurrent_scraping` invokes zero workers,
runs zero batches and awaits zero delays, but instead of returning an
empty AggregatedResult it raises `ValueError` from `pd.concat([])`. -/
theorem concurrent_scraping_empty_input_behaviour
    (worker : α → Bool → Except PyErr (List ρ)) (bs dl : Int) (hl : Bool)
    (hbs : 1 ≤ bs) (hdl : 0 ≤ dl) :
    (concurrent_scraping ([] : List α) worker bs dl hl).final
      = .error (.valueError "No objects to concatenate")
  ∧ (concurrent_scraping ([] : List α) worker bs dl hl).calls = []
  ∧ (concurrent_scraping ([] : List α) worker bs dl hl).sleeps = 0 := by
  rw [concurrent_scraping_pos [] worker bs dl hl hbs, chunks_nil]
  exact ⟨rfl, rfl, rfl⟩

/-- C3, witness for the amended theorem at a concrete input. -/
theorem concurrent_scraping_empty_input_behaviour_witness :
    (concurrent_scraping ([] : List Nat)
        (fun u _ => (.ok [u] : Except PyErr (List Nat))) 3 2 true).final
      = .error (.valueError "No objects to concatenate")
  ∧ (concurrent_scraping ([] : List Nat)
        (fun u _ => (.ok [u] : Except PyErr (List Nat))) 3 2 true).calls = []
  ∧ (concurrent_scraping ([] : List Nat)
        (fun u _ => (.ok [u] : Except PyErr (List Nat))) 3 2 true).sleeps = 0 :=
  concurrent_scraping_empty_input_behaviour
    (fun u _ => (.ok [u] : Except PyErr (List Nat))) 3 2 true
    (by decide) (by decide)

/-- C4, counterexample: with one item and `batchSize = 1` there is
exactly one batch, yet the inter-batch delay is awaited once — the
`asyncio.sleep` sits inside the loop body, so it also runs after the
final batch, where the claim demands `N - 1 = 0` delays. -/
theorem concurrent_scraping_sleeps_after_final_batch :
    (concurrent_scraping [0]
        (fun u _ => (.ok [u] : Except PyErr (List Nat))) 1 0 true).sleeps = 1
  ∧ (csBatchList ([0] : List Nat) 1).length = 1 := by
  exact ⟨rfl, rfl⟩

/-- C4 (amended): for every input list partitioned into N batches (all
worker invocations returning normally), the inter-batch delay is awaited
exactly N times — once after **every** batch, the final one included;
with zero items there are zero batches and zero delays. -/
theorem concurrent_scraping_sleeps_once_per_batch
    (l : List α) (worker : α → Bool → Except PyErr (List ρ)) (f : α → List ρ)
    (bs dl : Int) (hl : Bool)
    (hbs : 1 ≤ bs) (hw : ∀ u ∈ l, worker u hl = .ok (f u)) :
    (concurrent_scraping l worker bs dl hl).sleeps = (csBatchList l bs).length
  ∧ (csBatchList l bs).length = (l.length + bs.toNat - 1) / bs.toNat := by
  have hb1 : 1 ≤ bs.toNat := by omega
  have hflat : (chunks bs.toNat l).flatten = l := chunks_flatten bs.toNat hb1 l
  have hloop := csLoop_ok worker hl f (chunks bs.toNat l) (by rw [hflat]; exact hw)
  rw [concurrent_scraping_pos l worker bs dl hl hbs, csBatchList_pos l bs hbs]
  constructor
  · show (csLoop worker hl (chunks bs.toNat l)).sleeps = _
    rw [hloop]
  · exact chunks_length bs.toNat hb1 l

/-- C4, witness for the amended theorem at a concrete input
(three items, batch size two: two batches, two delays). -/
theorem concurrent_scraping_sleeps_once_per_batch_witness :
    (concurrent_scraping [0, 1, 2]
        (fun u _ => (.ok [u] : Except PyErr (List Nat))) 2 5 true).sleeps
      = (csBatchList ([0, 1, 2] : List Nat) 2).length
  ∧ (csBatchList ([0, 1, 2] : List Nat) 2).length = 2 := by
  have h := concurrent_scraping_sleeps_once_per_batch [0, 1, 2]
      (fun u _ => (.ok [u] : Except PyErr (List Nat))) (fun u => [u]) 2 5 true
      (by decide) (by decide)
  exact ⟨h.1, h.2⟩

/-- C5: for every input list and every `batchSize <= 0`,
`concurrent_scraping` raises `ValueError` — a structural configuration
error — to its caller, with zero worker invocations and zero delays
(no partial work). With `batchSize = 0` the error comes from `range`
itself at the top of the loop; with a negative `batchSize` the range is
empty, so nothing runs and `pd.concat([])` raises. -/
theorem concurrent_scraping_nonpositive_batch_structural
    (l : List α) (worker : α → Bool → Except PyErr (List ρ)) (bs dl : Int)
    (hl : Bool) (hbs : bs ≤ 0) :
    (∃ msg, (concurrent_scraping l worker bs dl hl).final
        = .error (.valueError msg))
  ∧ (concurrent_scraping l worker bs dl hl).calls = []
  ∧ (concurrent_scraping l worker bs dl hl).sleeps = 0 := by
  by_cases h0 : bs = 0
  · subst h0
    unfold concurrent_scraping csIndices
    rw [if_pos rfl]
    exact ⟨⟨"range() arg 3 must not be zero", rfl⟩, rfl, rfl⟩
  · have hneg : bs < 0 := by omega
    unfold concurrent_scraping csIndices
    rw [if_neg h0, if_pos hneg]
    exact ⟨⟨"No objects to concatenate", rfl⟩, rfl, rfl⟩

/-- C5, witness at a concrete input. -/
theorem concurrent_scraping_nonpositive_batch_structural_witness :
    (∃ msg, (concurrent_scraping [5, 6]
        (fun u _ => (.ok [u] : Except PyErr (List Nat))) 0 1 true).final
      = .error (.valueError msg))
  ∧ (concurrent_scraping [5, 6]
        (fun u _ => (.ok [u] : Except PyErr (List Nat))) 0 1 true).calls = []
  ∧ (concurrent_scraping [5, 6]
        (fun u _ => (.ok [u] : Except PyErr (List Nat))) 0 1 true).sleeps = 0 :=
  concurrent_scraping_nonpositive_batch_structural [5, 6]
    (fun u _ => (.ok [u] : Except PyErr (List Nat))) 0 1 true (by decide)

/-- C6: for every non-empty input list and `batchSize >= 1`, the batch
list built by tools.py:100-101 has exactly `ceil(len(items)/batchSize)`
batches (written `(len + b - 1) / b` in Nat arithmetic), its
concatenation is the input list (consecutive batches), every batch
except possibly the last has exactly `batchSize` items, and every batch
(the last included) has between 1 and `batchSize` items. -/
theorem csBatchList_partition_spec
    (l : List α) (bs : Int) (hbs : 1 ≤ bs) (hne : l ≠ []) :
    (csBatchList l bs).length = (l.length + bs.toNat - 1) / bs.toNat
  ∧ (csBatchList l bs).flatten = l
  ∧ (∀ c ∈ (csBatchList l bs).dropLast, c.length = bs.toNat)
  ∧ (∀ c ∈ csBatchList l bs, 1 ≤ c.length ∧ c.length ≤ bs.toNat) := by
  have hb1 : 1 ≤ bs.toNat := by omega
  rw [csBatchList_pos l bs hbs]
  exact ⟨chunks_length bs.toNat hb1 l, chunks_flatten bs.toNat hb1 l,
    chunks_dropLast_length bs.toNat hb1 l, chunks_mem_length bs.toNat hb1 l⟩

/-- C6, witness at a concrete input (three items, batch size two). -/
theorem csBatchList_partition_spec_witness :
    (csBatchList ([10, 20, 30] : List Nat) 2).length = 2
  ∧ (csBatchList ([10, 20, 30] : List Nat) 2).flatten = [10, 20, 30] := by
  have h := csBatchList_partition_spec ([10, 20, 30] : List Nat) 2
      (by decide) (by decide)
  exact ⟨h.1, h.2.1⟩

/-- C7: the filter at concurrency.py:43 tests `'query' in book_urls`
(membership of the literal in the whole list), not `'query' in url`: a
Stage-A record whose own URL contains the failed-search marker is kept
(first two conjuncts show the marker occurs in the URL yet the record
passes the filter, where the intended per-item exclusion drops it), and
if the literal string "query" happens to be an element of the list, every
record — valid or not — is dropped (last conjunct). -/
theorem filtered_book_urls_membership_bug :
    filtered_book_urls ["https://www.kobo.com/us/en/search?query=9780316769488"]
      = ["https://www.kobo.com/us/en/search?query=9780316769488"]
  ∧ hasSubstring "https://www.kobo.com/us/en/search?query=9780316769488" "query"
      = true
  ∧ filtered_book_urls_intended
      ["https://www.kobo.com/us/en/search?query=9780316769488"] = []
  ∧ filtered_book_urls ["query", "https://www.kobo.com/us/en/ebook/good-book"]
      = [] := by
  refine ⟨?_, ?_, ?_, ?_⟩ <;> decide

/-- C8, counterexample: in `get_url_by_isbn`, a successful item whose
context close raises has its outcome replaced by the close exception,
the cleanup failure is not logged, and the browser close is skipped —
violating every part of the claim for this worker. -/
theorem get_url_by_isbn_cleanup_masks_outcome :
    (get_url_by_isbn_run (.ok [(7 : Nat)]) ⟨some (.userExn 3), none⟩).result
      = .error (.userExn 3)
  ∧ (get_url_by_isbn_run (.ok [(7 : Nat)]) ⟨some (.userExn 3), none⟩).cleanupLogged
      = 0
  ∧ (get_url_by_isbn_run (.ok [(7 : Nat)]) ⟨some (.userExn 3), none⟩).browserCloseTried
      = false := by
  exact ⟨rfl, rfl, rfl⟩

/-- C8 (amended): the claimed cleanup protocol holds for `book_info` —
on every exit path both releases are attempted, every release failure is
logged, and the item's outcome never changes — but not for
`get_url_by_isbn`: there the context close is attempted on every exit
path, yet when it raises the failure is unlogged, replaces the item's
original outcome, and the browser close is skipped. -/
theorem worker_cleanup_protocols (body : Except PyErr (List ρ))
    (env : BrowserEnv) (e : PyErr) (ob : Option PyErr) :
    (book_info_run body env).result = (book_info_run body ⟨none, none⟩).result
  ∧ (book_info_run body env).ctxCloseTried = true
  ∧ (book_info_run body env).browserCloseTried = true
  ∧ (book_info_run body env).cleanupLogged
      = (if env.ctxCloseErr.isSome then 1 else 0)
        + (if env.browserCloseErr.isSome then 1 else 0)
  ∧ (get_url_by_isbn_run body env).ctxCloseTried = true
  ∧ (get_url_by_isbn_run body ⟨some e, ob⟩).result = .error e
  ∧ (get_url_by_isbn_run body ⟨some e, ob⟩).cleanupLogged = 0
  ∧ (get_url_by_isbn_run body ⟨some e, ob⟩).browserCloseTried = false := by
  obtain ⟨c, b⟩ := env
  cases c <;> cases b <;> cases body <;>
    simp [book_info_run, get_url_by_isbn_run]

/-- C9: `TryExcept.text` is a total accessor: on a present element it
returns the stripped text, on a missing element (`None`, whose attribute
access raises `AttributeError`) it returns the "N/A" sentinel, and on
every element value it returns a value rather than raising. -/
theorem tryexcept_text_total :
    (∀ el : HtmlElement, TryExcept.text (some el) = .ok el.text.trim)
  ∧ TryExcept.text none = .ok "N/A"
  ∧ ∀ element : Option HtmlElement, ∃ s, TryExcept.text element = .ok s := by
  refine ⟨fun el => rfl, rfl, fun element => ?_⟩
  cases element with
  | none => exact ⟨"N/A", rfl⟩
  | some el => exact ⟨el.text.trim, rfl⟩

/-- C10: for every argument values, both pipeline entry points raise
`TypeError` — from calling `logging_debugging` with no arguments though
it requires the positional `name` parameter — before any worker
invocation or scraping occurs. -/
theorem automation_raises_typeerror (isbn_lists : List α)
    (book_urls : List String)
    (workerA : α → Bool → Except PyErr (List ρ))
    (workerB : String → Bool → Except PyErr (List σ))
    (batches delay : Int) (headless : Bool) :
    (isbn_automation isbn_lists workerA batches delay headless).outcome
      = .error .typeError
  ∧ (isbn_automation isbn_lists workerA batches delay headless).workerCalls = []
  ∧ (book_info_automation book_urls workerB batches delay headless).outcome
      = .error .typeError
  ∧ (book_info_automation book_urls workerB batches delay headless).workerCalls
      = [] := by
  exact ⟨rfl, rfl, rfl, rfl⟩
